import Mathlib

/-!
Verification of the deepneat experiment-recording core
(`src/experiment/experiment.go`, `src/experiment/generation.go`).

Modelling conventions:
* Go `float64` values are modelled by `ℚ` (exact arithmetic; the code under
  scrutiny performs only field arithmetic on measured statistics).  Division
  by zero in `ℚ` yields the junk value `0`.
* Go `time.Time` / `time.Duration` are modelled by `Int` nanosecond counts;
  `time.Duration` division truncates toward zero (`Int.tdiv`), as in Go.
* The gob stream is modelled as a list of typed items (`GobValue`): gob is a
  self-describing stream of values, and decoding a value of the wrong type
  fails, which the model reflects with an error.
* Pointers (`*genetics.Organism`) held inside a single record are modelled by
  `Option Organism` values for the codec/analytics claims; a second,
  reference-level model (`GenerationR`, organism stores indexed by `Nat`)
  is used for the aliasing/frame-effect claims.
-/

namespace DeepNeat

/-- The deterministic plain-text form produced by `Genome.Write`, modelled by
its informational content (node and link counts are all the core observes). -/
structure GenomeText where
  nodes : Nat
  links : Nat
deriving DecidableEq

/-- Modelled from the spec (§3 Genome): a serializable candidate encoding with
a stable identity; the core treats the body as an opaque blob it round-trips.
The Go `genetics.Genome` is not under `src/`. -/
structure Genome where
  id : Int
  nodes : Nat
  links : Nat
deriving DecidableEq

/-- Modelled from the spec (§3, §6): deterministic plain-text write of a
genome; the text carries everything the matching parser needs. -/
def Genome.Write (g : Genome) : GenomeText := ⟨g.nodes, g.links⟩

/-- Modelled from the spec (§6): parse-by-identity read matching
`Genome.Write`; reconstructs a `Genome` from an identity plus the text. -/
def ReadGenome (data : GenomeText) (genomeId : Int) : Genome :=
  ⟨genomeId, data.nodes, data.links⟩

/-- Modelled from the spec (§3 Organism, §6 Organism view): fitness, winner
flag, generation index, expected-offspring value, error scalar, a species
back-reference (exposing an age), an owned genome, plus the `Flag` scratch
field written by `Experiment.BestOrganism`.  The Go `genetics.Organism` is
not under `src/`. -/
structure Organism where
  fitness : ℚ
  isWinner : Bool
  generation : Int
  expectedOffspring : ℚ
  error : ℚ
  flag : Int
  speciesAge : Option Int
  genotype : Option Genome
deriving DecidableEq

/-- The Go zero value of `genetics.Organism{}`. -/
def Organism.zero : Organism :=
  { fitness := 0, isWinner := false, generation := 0, expectedOffspring := 0
    error := 0, flag := 0, speciesAge := none, genotype := none }

/-- `Generation` from `src/experiment/generation.go`: one epoch record.
`champion` models the `*genetics.Organism` pointer by its value. -/
structure Generation where
  id : Int
  executed : Int
  duration : Int
  champion : Option Organism
  solved : Bool
  fitness : List ℚ
  age : List ℚ
  complexity : List ℚ
  diversity : Int
  winnerEvals : Int
  winnerNodes : Int
  winnerGenes : Int
  trialId : Int
deriving DecidableEq

/-- The Go zero value of `Generation{}`. -/
def Generation.zero : Generation :=
  { id := 0, executed := 0, duration := 0, champion := none, solved := false
    fitness := [], age := [], complexity := [], diversity := 0
    winnerEvals := 0, winnerNodes := 0, winnerGenes := 0, trialId := 0 }

/-- `Floats` from the experiment package (`Floats []float64`). -/
abbrev Floats := List ℚ

/-- Modelled from the spec (§4.1 `Average()`): `Floats.Mean` is not under
`src/`; the spec fixes the arithmetic mean with result `0` (never `NaN`) on
an empty vector. -/
def Floats.Mean (xs : Floats) : ℚ :=
  if xs.isEmpty then 0 else xs.sum / (xs.length : ℚ)

/-- `Generation.Average` from `src/experiment/generation.go`: the mean
fitness, age and complexity vectors of the epoch. -/
def Generation.Average (g : Generation) : ℚ × ℚ × ℚ :=
  (Floats.Mean g.fitness, Floats.Mean g.age, Floats.Mean g.complexity)

/-- `math.MaxInt` on a 64-bit platform. -/
def maxIntVal : Int := 9223372036854775807

/-- Modelled from the spec (§4.1): complexity of an organism is its
phenotype's node count plus link count, pure and deterministic for an
unchanged genome; `math.MaxInt` when the phenotype cannot be built (missing
genotype).  The Go `organismComplexity` helper is not under `src/`. -/
def organismComplexity (o : Organism) : Int :=
  match o.genotype with
  | none => maxIntVal
  | some g => (g.nodes : Int) + (g.links : Int)

/-- `Generation.ChampionComplexity` from `src/experiment/generation.go`:
`math.MaxInt` for a missing champion, otherwise the champion's complexity. -/
def Generation.ChampionComplexity (g : Generation) : Int :=
  match g.champion with
  | none => maxIntVal
  | some o => organismComplexity o

/-- Modelled from the spec (§3 Trial): an ordered sequence of Generations, a
duration, plus a cached winner generation (lazily memoized).  The Go
`experiment.Trial` type is not under `src/` (only its callers are). -/
structure Trial where
  duration : Int
  generations : List Generation
  winnerGeneration : Option Generation
deriving DecidableEq

/-- The Go zero value of `Trial{}`. -/
def Trial.zero : Trial := { duration := 0, generations := [], winnerGeneration := none }

/-- Modelled from the spec (§4.4, glossary): a trial is solved when some
generation of it is solved.  `Trial.Solved` is not under `src/`. -/
def Trial.Solved (t : Trial) : Bool :=
  t.generations.any (fun g => g.solved)

/-- Modelled from the spec (§4.4 `WinnerStatistics`): the winner generation
used after the lazy fill — the cached one when present, otherwise the first
generation with `solved == true`. -/
def Trial.winnerGenerationAfterFill (t : Trial) : Option Generation :=
  match t.winnerGeneration with
  | some g => some g
  | none => t.generations.find? (fun g => g.solved)

/-- Modelled from the spec (§4.4): arithmetic mean of epoch durations of one
trial, zero duration when the trial has no generations; Go `time.Duration`
division truncates toward zero.  `Trial.AvgEpochDuration` is not under
`src/`. -/
def Trial.AvgEpochDuration (t : Trial) : Int :=
  if t.generations.length > 0 then
    Int.tdiv ((t.generations.map (fun g => g.duration)).sum) (t.generations.length : Int)
  else 0

/-- `Experiment` from `src/experiment/experiment.go`. -/
structure Experiment where
  id : Int
  name : String
  randSeed : Int
  maxFitnessScore : ℚ
  trials : List Trial
deriving DecidableEq

/-- The Go zero value of `Experiment{}`. -/
def Experiment.zero : Experiment :=
  { id := 0, name := "", randSeed := 0, maxFitnessScore := 0, trials := [] }

/-- `Experiment.AvgEpochDuration` from `src/experiment/experiment.go`. -/
def Experiment.AvgEpochDuration (e : Experiment) : Int :=
  if e.trials.length > 0 then
    Int.tdiv ((e.trials.map Trial.AvgEpochDuration).sum) (e.trials.length : Int)
  else 0

/-- `Experiment.AvgGenerationsPerTrial` from `src/experiment/experiment.go`. -/
def Experiment.AvgGenerationsPerTrial (e : Experiment) : ℚ :=
  if e.trials.length > 0 then
    ((e.trials.map (fun t => ((t.generations.length : Nat) : ℚ))).sum) / (e.trials.length : ℚ)
  else 0

/-- `Experiment.TrialsSolved` from `src/experiment/experiment.go`: counts the
solved trials with an accumulating loop. -/
def Experiment.TrialsSolved (e : Experiment) : Nat :=
  e.trials.foldl (fun count t => if t.Solved then count + 1 else count) 0

/-- `Experiment.SuccessRate` from `src/experiment/experiment.go`. -/
def Experiment.SuccessRate (e : Experiment) : ℚ :=
  if e.trials.length > 0 then
    ((e.TrialsSolved : Nat) : ℚ) / (e.trials.length : ℚ)
  else 0

/-- The champion complexity read by `Experiment.EfficiencyScore`:
`float64(t.WinnerGeneration.ChampionComplexity())`.  Go dereferences the
`WinnerGeneration` pointer, which under the loop's `t.Solved()` guard is
always non-nil after the lazy fill; the `getD` default is never reached
there. -/
def Trial.winnerChampionComplexity (t : Trial) : ℚ :=
  (((t.winnerGenerationAfterFill).getD Generation.zero).ChampionComplexity : ℚ)

/-- The champion fitness read by `Experiment.EfficiencyScore`:
`t.WinnerGeneration.Champion.Fitness`.  Go panics when the champion pointer
is nil; the model totalizes that read with `0`, and theorems about solved
trials carry a champion-present hypothesis so the junk branch is never
exercised. -/
def Trial.championFitness (t : Trial) : ℚ :=
  match (t.winnerGenerationAfterFill).bind (fun g => g.champion) with
  | some o => o.fitness
  | none => 0

/-- The body of the accumulation loop of `Experiment.EfficiencyScore`
(`src/experiment/experiment.go`): running `(count, meanComplexity,
meanFitness)` sums over the solved trials. -/
def effStep (acc : ℚ × ℚ × ℚ) (t : Trial) : ℚ × ℚ × ℚ :=
  if t.Solved then
    (acc.1 + 1, acc.2.1 + t.winnerChampionComplexity, acc.2.2 + t.championFitness)
  else acc

/-- `Experiment.penaltyScore` from `src/experiment/experiment.go`:
`AvgEpochDuration().Seconds() * 1000.0 * AvgGenerationsPerTrial() *
meanComplexity`. -/
def Experiment.penaltyScore (e : Experiment) (meanComplexity : ℚ) : ℚ :=
  ((e.AvgEpochDuration : ℚ) / 1000000000) * 1000 * e.AvgGenerationsPerTrial * meanComplexity

/-- `Experiment.EfficiencyScore` from `src/experiment/experiment.go`.
`math.Log` is a collaborator transcendental function, threaded in as the
`log` parameter. -/
def Experiment.EfficiencyScore (log : ℚ → ℚ) (e : Experiment) : ℚ :=
  let means :=
    if e.trials.length > 1 then
      let acc := e.trials.foldl effStep ((0 : ℚ), (0 : ℚ), (0 : ℚ))
      (acc.2.1 / acc.1, acc.2.2 / acc.1)
    else ((0 : ℚ), (0 : ℚ))
  let fitnessScore :=
    if e.maxFitnessScore > 0 then means.2 / e.maxFitnessScore * 100 else means.2
  let score := e.penaltyScore means.1
  if score > 0 then e.SuccessRate * fitnessScore / log score else score

/-- The solved trials of an experiment, in order. -/
def Experiment.solvedTrials (e : Experiment) : List Trial :=
  e.trials.filter Trial.Solved

/-- Stated from the claim's words: the mean winner-generation champion
complexity over the solved trials. -/
def specMeanComplexity (e : Experiment) : ℚ :=
  ((e.solvedTrials.map Trial.winnerChampionComplexity).sum) / (e.solvedTrials.length : ℚ)

/-- Stated from the claim's words: the mean winner-generation champion
fitness over the solved trials. -/
def specMeanFitness (e : Experiment) : ℚ :=
  ((e.solvedTrials.map Trial.championFitness).sum) / (e.solvedTrials.length : ℚ)

/-- Stated from the claim's words: the fitness rescaled by
`(meanFitness / MaxFitnessScore) * 100` exactly when `MaxFitnessScore > 0`. -/
def specScaledFitness (e : Experiment) : ℚ :=
  if e.maxFitnessScore > 0 then specMeanFitness e / e.maxFitnessScore * 100
  else specMeanFitness e

/-- Stated from the claim's words: the penalty
`avgEpochDurationSeconds * 1000 * avgGenerationsPerTrial * meanComplexity`. -/
def specPenalty (e : Experiment) : ℚ :=
  ((e.AvgEpochDuration : ℚ) / 1000000000) * 1000 * e.AvgGenerationsPerTrial * specMeanComplexity e

/-- One value on the gob wire.  Each Go type written by the codec gets its own
constructor; gob decoding into a variable of a mismatched type fails. -/
inductive GobValue where
  | gint (n : Int)
  | gtime (t : Int)
  | gbool (b : Bool)
  | gfloat (x : ℚ)
  | gfloats (xs : List ℚ)
  | gduration (d : Int)
  | gstr (s : String)
  | gblob (b : GenomeText)
deriving DecidableEq

/-- The sequential gob stream. -/
abbrev GobStream := List GobValue

/-- `errors.Wrap(err, msg)` from github.com/pkg/errors: prefixes the message. -/
def errWrap (msg : String) : Except String α → Except String α
  | .error e => .error (msg ++ ": " ++ e)
  | .ok a => .ok a

/-- Decode one `int` value from the stream. -/
def decodeGobInt : GobStream → Except String (Int × GobStream)
  | .gint n :: rest => .ok (n, rest)
  | [] => .error "EOF"
  | _ :: _ => .error "gob type mismatch"

/-- Decode one `time.Time` value from the stream. -/
def decodeGobTime : GobStream → Except String (Int × GobStream)
  | .gtime t :: rest => .ok (t, rest)
  | [] => .error "EOF"
  | _ :: _ => .error "gob type mismatch"

/-- Decode one `bool` value from the stream. -/
def decodeGobBool : GobStream → Except String (Bool × GobStream)
  | .gbool b :: rest => .ok (b, rest)
  | [] => .error "EOF"
  | _ :: _ => .error "gob type mismatch"

/-- Decode one `float64` value from the stream. -/
def decodeGobFloat : GobStream → Except String (ℚ × GobStream)
  | .gfloat x :: rest => .ok (x, rest)
  | [] => .error "EOF"
  | _ :: _ => .error "gob type mismatch"

/-- Decode one `Floats` vector from the stream. -/
def decodeGobFloats : GobStream → Except String (List ℚ × GobStream)
  | .gfloats xs :: rest => .ok (xs, rest)
  | [] => .error "EOF"
  | _ :: _ => .error "gob type mismatch"

/-- Decode one `time.Duration` value from the stream. -/
def decodeGobDuration : GobStream → Except String (Int × GobStream)
  | .gduration d :: rest => .ok (d, rest)
  | [] => .error "EOF"
  | _ :: _ => .error "gob type mismatch"

/-- Decode one `string` value from the stream. -/
def decodeGobStr : GobStream → Except String (String × GobStream)
  | .gstr s :: rest => .ok (s, rest)
  | [] => .error "EOF"
  | _ :: _ => .error "gob type mismatch"

/-- Decode one `[]byte` genome blob from the stream. -/
def decodeGobBlob : GobStream → Except String (GenomeText × GobStream)
  | .gblob b :: rest => .ok (b, rest)
  | [] => .error "EOF"
  | _ :: _ => .error "gob type mismatch"

/-- `encodeOrganism` from `src/experiment/generation.go`: fitness, winner
flag, generation index, expected offspring, error scalar, then — only when
the genotype is non-nil — the genome id and the genome's written bytes. -/
def encodeOrganism (o : Organism) : GobStream :=
  [.gfloat o.fitness, .gbool o.isWinner, .gint o.generation,
   .gfloat o.expectedOffspring, .gfloat o.error] ++
  (match o.genotype with
   | some g => [.gint g.id, .gblob (Genome.Write g)]
   | none => [])

/-- The twelve scalar/vector fields written by `Generation.Encode`
(`src/experiment/generation.go`), in source order. -/
def generationScalarItems (g : Generation) : GobStream :=
  [.gint g.id, .gtime g.executed, .gbool g.solved, .gfloats g.fitness,
   .gfloats g.age, .gfloats g.complexity, .gint g.diversity,
   .gint g.winnerEvals, .gint g.winnerNodes, .gint g.winnerGenes,
   .gduration g.duration, .gint g.trialId]

/-- `Generation.Encode` from `src/experiment/generation.go`: the twelve
scalar/vector fields, then the champion record only when the champion is
non-nil. -/
def Generation.Encode (g : Generation) : GobStream :=
  generationScalarItems g ++
  (match g.champion with
   | some o => encodeOrganism o
   | none => [])

/-- `decodeOrganism` from `src/experiment/generation.go`: decodes into a
fresh zero organism; note the source wraps the `ExpectedOffspring` and
`Error` failures with the message naming `Generation`. -/
def decodeOrganism (s : GobStream) : Except String (Organism × GobStream) := do
  let (fit, s) ← errWrap "failed to decode Fitness" (decodeGobFloat s)
  let (win, s) ← errWrap "failed to decode IsWinner" (decodeGobBool s)
  let (genIdx, s) ← errWrap "failed to decode Generation" (decodeGobInt s)
  let (expOff, s) ← errWrap "failed to decode Generation" (decodeGobFloat s)
  let (errVal, s) ← errWrap "failed to decode Generation" (decodeGobFloat s)
  let (genId, s) ← errWrap "failed to decode genId" (decodeGobInt s)
  let (data, s) ← errWrap "failed to decode organism's data" (decodeGobBlob s)
  .ok ({ Organism.zero with
          fitness := fit, isWinner := win, generation := genIdx,
          expectedOffspring := expOff, error := errVal,
          genotype := some (ReadGenome data genId) }, s)

/-- `Generation.Decode` from `src/experiment/generation.go`: the twelve
scalar/vector fields in encode order — note the source wraps the
`WinnerGenes` failure with the message naming `WinnerNodes` — then always
one organism record. -/
def Generation.Decode (g : Generation) (s : GobStream) :
    Except String (Generation × GobStream) := do
  let (gid, s) ← errWrap "failed to decode Id" (decodeGobInt s)
  let (gexec, s) ← errWrap "failed to decode Executed" (decodeGobTime s)
  let (gsolved, s) ← errWrap "failed to decode Solved" (decodeGobBool s)
  let (gfit, s) ← errWrap "failed to decode Fitness" (decodeGobFloats s)
  let (gage, s) ← errWrap "failed to decode Age" (decodeGobFloats s)
  let (gcompl, s) ← errWrap "failed to decode Complexity" (decodeGobFloats s)
  let (gdiv, s) ← errWrap "failed to decode Diversity" (decodeGobInt s)
  let (gwev, s) ← errWrap "failed to decode WinnerEvals" (decodeGobInt s)
  let (gwnodes, s) ← errWrap "failed to decode WinnerNodes" (decodeGobInt s)
  let (gwgenes, s) ← errWrap "failed to decode WinnerNodes" (decodeGobInt s)
  let (gdur, s) ← errWrap "failed to decode Duration" (decodeGobDuration s)
  let (gtrial, s) ← errWrap "failed to decode TrialId" (decodeGobInt s)
  let (org, s) ← decodeOrganism s
  .ok ({ g with
          id := gid, executed := gexec, solved := gsolved, fitness := gfit,
          age := gage, complexity := gcompl, diversity := gdiv,
          winnerEvals := gwev, winnerNodes := gwnodes, winnerGenes := gwgenes,
          duration := gdur, trialId := gtrial, champion := some org }, s)

/-- Modelled from the spec (§4.2): a Trial sequentially encodes its
Generations, count-prefixed.  `Trial.Encode` is not under `src/`. -/
def Trial.Encode (t : Trial) : GobStream :=
  GobValue.gint (t.generations.length : Int) ::
    (t.generations.map Generation.Encode).flatten

/-- Decodes `n` generation records, each into a fresh zero generation. -/
def decodeGenerations : Nat → GobStream → Except String (List Generation × GobStream)
  | 0, s => .ok ([], s)
  | n + 1, s => do
    let (g, s) ← Generation.Decode Generation.zero s
    let (gs, s) ← decodeGenerations n s
    .ok (g :: gs, s)

/-- Modelled from the spec (§4.2): `Trial.Decode` reads the generation count
then each generation sequentially, into a fresh zero trial. -/
def Trial.Decode (s : GobStream) : Except String (Trial × GobStream) := do
  let (n, s) ← decodeGobInt s
  let (gs, s) ← decodeGenerations n.toNat s
  .ok ({ Trial.zero with generations := gs }, s)

/-- `Experiment.Encode` from `src/experiment/experiment.go`: id, name, trial
count, then each trial; `RandSeed` and `MaxFitnessScore` are never written. -/
def Experiment.Encode (e : Experiment) : GobStream :=
  [.gint e.id, .gstr e.name, .gint (e.trials.length : Int)] ++
    (e.trials.map Trial.Encode).flatten

/-- Decodes `n` trial records. -/
def decodeTrials : Nat → GobStream → Except String (List Trial × GobStream)
  | 0, s => .ok ([], s)
  | n + 1, s => do
    let (t, s) ← Trial.Decode s
    let (ts, s) ← decodeTrials n s
    .ok (t :: ts, s)

/-- `Experiment.Decode` from `src/experiment/experiment.go`: id, name, trial
count, then each trial decoded into a fresh `Trial{}`; only `Id`, `Name` and
`Trials` of the receiver are assigned. -/
def Experiment.Decode (e : Experiment) (s : GobStream) :
    Except String (Experiment × GobStream) := do
  let (eid, s) ← decodeGobInt s
  let (ename, s) ← decodeGobStr s
  let (n, s) ← decodeGobInt s
  let (ts, s) ← decodeTrials n.toNat s
  .ok ({ e with id := eid, name := ename, trials := ts }, s)

/-!
Reference-level model.  Go holds organisms behind `*genetics.Organism`
pointers; here a pointer is an index (`Nat`) into an organism store
(`List Organism`), so that aliasing and in-place mutation are observable.
-/

/-- Modelled from the spec (§6 Population/species view): a species exposes an
age and its organisms; organisms are held by reference. -/
structure SpeciesR where
  age : Int
  organisms : List Nat
deriving DecidableEq

/-- Modelled from the spec (§6): the population snapshot consumed by
`FillPopulationStatistics` — an ordered list of species. -/
structure Population where
  species : List SpeciesR
deriving DecidableEq

/-- `Generation` at the reference level: identical to `Generation` except
that the champion is a live pointer (store index) instead of a value. -/
structure GenerationR where
  id : Int
  executed : Int
  duration : Int
  champion : Option Nat
  solved : Bool
  fitness : List ℚ
  age : List ℚ
  complexity : List ℚ
  diversity : Int
  winnerEvals : Int
  winnerNodes : Int
  winnerGenes : Int
  trialId : Int
deriving DecidableEq

/-- The Go zero value of a reference-level `Generation{}`. -/
def GenerationR.zero : GenerationR :=
  { id := 0, executed := 0, duration := 0, champion := none, solved := false
    fitness := [], age := [], complexity := [], diversity := 0
    winnerEvals := 0, winnerNodes := 0, winnerGenes := 0, trialId := 0 }

/-- Dereference a list of organism pointers; `none` models the impossible
dangling pointer (a Go panic). -/
def resolveRefs (store : List Organism) : List Nat → Option (List (Nat × Organism))
  | [] => some []
  | r :: rest =>
    match store[r]? with
    | some o => (resolveRefs store rest).map (fun l => (r, o) :: l)
    | none => none

/-- The element of maximal fitness, first occurrence winning ties: the
observable outcome of `sort.Sort(sort.Reverse(organisms))` followed by
taking index 0 (the unstable sort leaves the tie order unspecified; the
model determinizes it to the first maximum). -/
def pickBest : (Nat × Organism) → List (Nat × Organism) → Nat × Organism
  | best, [] => best
  | best, p :: ps => pickBest (if p.2.fitness > best.2.fitness then p else best) ps

/-- The representative (maximum-fitness) organism of one species:
`currSpecies.Organisms[0]` after the descending sort; `none` when the
species is empty (a Go index panic) or a pointer dangles. -/
def bestRef (store : List Organism) (orgRefs : List Nat) : Option (Nat × Organism) :=
  match resolveRefs store orgRefs with
  | none => none
  | some [] => none
  | some (p :: ps) => some (pickBest p ps)

/-- Walks the species of the snapshot collecting `(age, representative)`
per species, as the loop of `Generation.FillPopulationStatistics` does. -/
def collectReps (store : List Organism) : List SpeciesR → Option (List (Int × Nat × Organism))
  | [] => some []
  | s :: rest =>
    match bestRef store s.organisms with
    | none => none
    | some p =>
      match collectReps store rest with
      | none => none
      | some l => some ((s.age, p.1, p.2) :: l)

/-- The fold tracking `maxFitness` and the champion pointer in
`Generation.FillPopulationStatistics`: a representative strictly fitter than
the running maximum becomes the champion. -/
def championStep (acc : Option Nat × ℚ) (rep : Int × Nat × Organism) : Option Nat × ℚ :=
  if rep.2.2.fitness > acc.2 then (some rep.2.1, rep.2.2.fitness) else acc

/-- `Generation.FillPopulationStatistics` from `src/experiment/generation.go`
at the reference level: fills diversity and the three per-species vectors
from each species' best organism, and — unless the generation is already
solved — records as champion the representative with the globally maximal
fitness (`maxFitness` starts at `float64(math.MinInt64)`); the champion is
stored as the organism pointer itself.  `none` models the Go panic on an
empty species. -/
def GenerationR.FillPopulationStatistics (store : List Organism) (g : GenerationR)
    (pop : Population) : Option GenerationR :=
  match collectReps store pop.species with
  | none => none
  | some reps =>
    some { g with
      diversity := (pop.species.length : Int)
      age := reps.map (fun rep => ((rep.1 : Int) : ℚ))
      complexity := reps.map (fun rep => ((organismComplexity rep.2.2 : Int) : ℚ))
      fitness := reps.map (fun rep => rep.2.2.fitness)
      champion :=
        if g.solved then g.champion
        else (reps.foldl championStep (g.champion, (-9223372036854775808 : ℚ))).1 }

/-- The organism value currently recorded as a generation's champion: the
champion pointer dereferenced in the current store. -/
def championOf (store : List Organism) (g : GenerationR) : Option Organism :=
  g.champion.bind (fun r => store[r]?)

/-- All organism pointers of a population snapshot. -/
def allOrganismRefs (pop : Population) : List Nat :=
  (pop.species.map (fun s => s.organisms)).flatten

/-- A trial at the reference level: its generations hold champion pointers. -/
structure TrialR where
  generations : List GenerationR
deriving DecidableEq

/-- Dereference one pointer, keeping the pointer alongside the organism. -/
def resolveRef (store : List Organism) (r : Nat) : Option (Nat × Organism) :=
  (store[r]?).map (fun o => (r, o))

/-- The candidate organisms of `Trial.BestOrganism`: the per-generation
champion pointers of the trial, dereferenced. -/
def trialCands (store : List Organism) (t : TrialR) : List (Nat × Organism) :=
  (t.generations.filterMap (fun g => g.champion)).filterMap (resolveRef store)

/-- Modelled from the spec (§4.1 `BestOrganism`): linear scan for the
maximum-fitness organism among the trial's per-generation champions,
filtered to winner-flagged organisms when `onlySolvers`; `none` is the
not-found signal.  `Trial.BestOrganism` is not under `src/`. -/
def trialBest (store : List Organism) (t : TrialR) (onlySolvers : Bool) :
    Option (Nat × Organism) :=
  match (if onlySolvers then (trialCands store t).filter (fun p => p.2.isWinner)
         else trialCands store t) with
  | [] => none
  | p :: ps => some (pickBest p ps)

/-- In-place write of the `Flag` field of the organism at index `r`,
modelling `org.Flag = i` through a pointer. -/
def flagSet : List Organism → Nat → Int → List Organism
  | [], _, _ => []
  | o :: rest, 0, i => { o with flag := i } :: rest
  | o :: rest, n + 1, i => o :: flagSet rest n i

/-- The collection loop of `Experiment.BestOrganism`
(`src/experiment/experiment.go`): for each trial in order, when a per-trial
best organism is found it is appended to `orgs` and its `Flag` field is
overwritten with the trial index, mutating the store. -/
def bestLoop (onlySolvers : Bool) :
    List Organism → List TrialR → Nat → List Nat → List Nat × List Organism
  | store, [], _, orgs => (orgs, store)
  | store, t :: ts, i, orgs =>
    match trialBest store t onlySolvers with
    | some p => bestLoop onlySolvers (flagSet store p.1 (i : Int)) ts (i + 1) (orgs ++ [p.1])
    | none => bestLoop onlySolvers store ts (i + 1) orgs

/-- The `Flag` field of the organism at index `r` (0 when dangling). -/
def flagAt (store : List Organism) (r : Nat) : Int :=
  match store[r]? with
  | some o => o.flag
  | none => 0

/-- The fitness of the organism at index `r` (0 when dangling). -/
def fitnessAt (store : List Organism) (r : Nat) : ℚ :=
  match store[r]? with
  | some o => o.fitness
  | none => 0

/-- `sort.Sort(sort.Reverse(orgs))` followed by `orgs[0]`: the reference of
maximal fitness, determinized to the first maximum. -/
def pickBestRef (store : List Organism) : Nat → List Nat → Nat
  | best, [] => best
  | best, r :: rs =>
    pickBestRef store (if fitnessAt store r > fitnessAt store best then r else best) rs

/-- `Experiment.BestOrganism` from `src/experiment/experiment.go` at the
reference level: collects each trial's best organism (flagging it with the
trial index in place), then returns the fittest collected organism with its
trial id, or the not-found triple `(nil, -1, false)`.  Returns the result
paired with the final store. -/
def BestOrganismR (store : List Organism) (trials : List TrialR) (onlySolvers : Bool) :
    (Option Nat × Int × Bool) × List Organism :=
  let res := bestLoop onlySolvers store trials 0 []
  match res.1 with
  | [] => ((none, -1, false), res.2)
  | r :: rs =>
    let best := pickBestRef res.2 r rs
    ((some best, flagAt res.2 best, true), res.2)

/-!  Theorems. -/

/-- The counting loop of `Experiment.TrialsSolved` counts exactly the list
elements satisfying the predicate. -/
theorem foldl_count_eq_countP (p : α → Bool) (l : List α) (n : Nat) :
    l.foldl (fun count t => if p t then count + 1 else count) n = n + l.countP p := by
  induction l generalizing n with
  | nil => simp
  | cons a l ih =>
    by_cases h : p a <;> (simp [h, ih, List.countP_cons]; try omega)

/-- `TrialsSolved` equals the number of solved trials. -/
theorem trialsSolved_eq_countP (e : Experiment) :
    e.TrialsSolved = e.trials.countP Trial.Solved := by
  simpa using foldl_count_eq_countP Trial.Solved e.trials 0

/-- Claim C4: on a Generation with `Diversity == 0`, i.e. empty `Fitness`,
`Age` and `Complexity` vectors, `Generation.Average()` returns exactly
`(0, 0, 0)` (no `NaN` arises; the means are exact rationals). -/
theorem C4_average_empty_generation (g : Generation)
    (hf : g.fitness = []) (ha : g.age = []) (hc : g.complexity = [])
    (_hd : g.diversity = 0) :
    g.Average = (0, 0, 0) := by
  simp [Generation.Average, Floats.Mean, hf, ha, hc]

/-- Witness for C4 at the zero generation. -/
theorem C4_average_empty_generation_witness :
    Generation.zero.Average = (0, 0, 0) :=
  C4_average_empty_generation Generation.zero rfl rfl rfl rfl

/-- Claim C5 counterexample: on the experiment with no trials, every trial is
(vacuously) solved yet `SuccessRate` is `0`, not `1`; the claimed
equivalence `SuccessRate = 1 ↔ every trial solved` fails. -/
theorem C5_success_rate_counterexample :
    (∀ t ∈ Experiment.zero.trials, Trial.Solved t) ∧
    Experiment.zero.SuccessRate = 0 ∧ (0 : ℚ) ≠ 1 := by
  refine ⟨?_, ?_, ?_⟩
  · intro t ht
    simp [Experiment.zero] at ht
  · simp [Experiment.SuccessRate, Experiment.zero]
  · norm_num

/-- Claim C5 (amended): `SuccessRate` always lies in `[0, 1]` and is `0`
when there are no trials; for an experiment with at least one trial it
equals `1` exactly when every trial is solved. -/
theorem C5_success_rate_amended (e : Experiment) :
    0 ≤ e.SuccessRate ∧ e.SuccessRate ≤ 1 ∧
    (e.trials = [] → e.SuccessRate = 0) ∧
    (e.trials ≠ [] →
      (e.SuccessRate = 1 ↔ ∀ t ∈ e.trials, Trial.Solved t)) := by
  by_cases he : e.trials = []
  · refine ⟨?_, ?_, fun _ => ?_, fun h => absurd he h⟩ <;>
      simp [Experiment.SuccessRate, he]
  · have hlen : 0 < e.trials.length := List.length_pos.mpr he
    have hlenQ : (0 : ℚ) < (e.trials.length : ℚ) := by exact_mod_cast hlen
    have hrate : e.SuccessRate =
        ((e.trials.countP Trial.Solved : Nat) : ℚ) / (e.trials.length : ℚ) := by
      rw [Experiment.SuccessRate, if_pos hlen, trialsSolved_eq_countP]
    refine ⟨?_, ?_, fun h => absurd h he, fun _ => ?_⟩
    · rw [hrate]
      positivity
    · rw [hrate, div_le_one hlenQ]
      exact_mod_cast e.trials.countP_le_length Trial.Solved
    · rw [hrate, div_eq_iff (ne_of_gt hlenQ), one_mul, Nat.cast_inj]
      exact List.countP_eq_length

/-- Witness for C5 (amended) at a one-trial solved experiment. -/
theorem C5_success_rate_amended_witness :
    0 ≤ Experiment.SuccessRate { Experiment.zero with
        trials := [{ Trial.zero with
          generations := [{ Generation.zero with solved := true }] }] } ∧
    Experiment.SuccessRate { Experiment.zero with
        trials := [{ Trial.zero with
          generations := [{ Generation.zero with solved := true }] }] } = 1 := by
  have h := C5_success_rate_amended { Experiment.zero with
    trials := [{ Trial.zero with
      generations := [{ Generation.zero with solved := true }] }] }
  refine ⟨h.1, ?_⟩
  exact (h.2.2.2 (by simp)).2 (by decide)

/-- Claim C6 (code bug): decode failures are meant to be wrapped with the
failing field's own name, but the source wraps a `WinnerGenes` failure with
the message naming `WinnerNodes`, and wraps `ExpectedOffspring` (and
`Error`) failures inside `decodeOrganism` with the message naming
`Generation`. -/
theorem C6_decode_error_labels :
    Generation.Decode Generation.zero
        [.gint 1, .gtime 0, .gbool false, .gfloats [], .gfloats [], .gfloats [],
         .gint 0, .gint 0, .gint 0] =
      .error "failed to decode WinnerNodes: EOF" ∧
    decodeOrganism [.gfloat 0, .gbool false, .gint 0] =
      .error "failed to decode Generation: EOF" ∧
    "failed to decode WinnerNodes: EOF" ≠ "failed to decode WinnerGenes: EOF" ∧
    "failed to decode Generation: EOF" ≠ "failed to decode ExpectedOffspring: EOF" := by
  refine ⟨rfl, rfl, by decide, by decide⟩

/-- Decoding past the twelve scalar/vector fields of an encoded generation
always continues with the organism decoder on the remaining stream. -/
theorem generationDecode_append (g g0 : Generation) (rest : GobStream) :
    Generation.Decode g0 (generationScalarItems g ++ rest) =
      (decodeOrganism rest).map (fun p => ({ g with champion := some p.1 }, p.2)) := by
  cases g
  rcases hdo : decodeOrganism rest with err | ⟨o, r⟩ <;>
    simp [Generation.Decode, generationScalarItems, decodeGobInt, decodeGobTime,
      decodeGobBool, decodeGobFloats, decodeGobDuration, errWrap, hdo, Except.map,
      bind, Except.bind]

/-- An organism that the champion codec round-trips exactly: its scratch
`Flag` is zero, it has no species back-reference, and it owns a genotype
(none of which are persisted, or persisted only via the genome blob). -/
def organismPersistable (o : Organism) : Prop :=
  o.flag = 0 ∧ o.speciesAge = none ∧ ∃ g, o.genotype = some g

/-- A generation whose champion record round-trips: the champion is present
and persistable. -/
def generationPersistable (g : Generation) : Prop :=
  ∃ o, g.champion = some o ∧ organismPersistable o

/-- A trial that the codec round-trips: its non-persisted fields hold their
zero values and every generation is persistable. -/
def trialPersistable (t : Trial) : Prop :=
  t.duration = 0 ∧ t.winnerGeneration = none ∧ ∀ g ∈ t.generations, generationPersistable g

/-- An experiment that the codec round-trips: `RandSeed` and
`MaxFitnessScore` (never encoded) hold their zero values and every trial is
persistable. -/
def experimentPersistable (e : Experiment) : Prop :=
  e.randSeed = 0 ∧ e.maxFitnessScore = 0 ∧ ∀ t ∈ e.trials, trialPersistable t

/-- The organism codec round-trips a persistable organism. -/
theorem decodeOrganism_encodeOrganism (o : Organism) (gt : Genome) (rest : GobStream)
    (hg : o.genotype = some gt) (hf : o.flag = 0) (hs : o.speciesAge = none) :
    decodeOrganism (encodeOrganism o ++ rest) = .ok (o, rest) := by
  obtain ⟨fit, win, gen, eo, er, fl, sa, gty⟩ := o
  obtain ⟨gid, gn, gl⟩ := gt
  simp only at hg hf hs
  subst hg hf hs
  rfl

/-- The generation codec round-trips a persistable generation, into any
receiver. -/
theorem generationDecode_generationEncode (g g0 : Generation) (o : Organism)
    (gt : Genome) (rest : GobStream) (hc : g.champion = some o)
    (hg : o.genotype = some gt) (hf : o.flag = 0) (hs : o.speciesAge = none) :
    Generation.Decode g0 (Generation.Encode g ++ rest) = .ok (g, rest) := by
  simp only [Generation.Encode, hc, List.append_assoc]
  rw [generationDecode_append, decodeOrganism_encodeOrganism o gt rest hg hf hs]
  cases g
  simp only at hc
  subst hc
  rfl

/-- Decoding back a list of encoded persistable generations recovers the
list. -/
theorem decodeGenerations_roundtrip (gs : List Generation) (rest : GobStream)
    (h : ∀ g ∈ gs, generationPersistable g) :
    decodeGenerations gs.length ((gs.map Generation.Encode).flatten ++ rest) =
      .ok (gs, rest) := by
  induction gs generalizing rest with
  | nil => rfl
  | cons g gs ih =>
    obtain ⟨o, hc, hf, hs, gt, hg⟩ := h g (List.mem_cons_self g gs)
    simp only [List.map_cons, List.flatten_cons, List.length_cons, List.append_assoc,
      decodeGenerations]
    rw [generationDecode_generationEncode g Generation.zero o gt _ hc hg hf hs]
    simp only [bind, Except.bind]
    rw [ih rest (fun g hgm => h g (List.mem_cons_of_mem _ hgm))]

/-- The trial codec round-trips a persistable trial. -/
theorem trialDecode_trialEncode (t : Trial) (rest : GobStream)
    (h : trialPersistable t) :
    Trial.Decode (Trial.Encode t ++ rest) = .ok (t, rest) := by
  obtain ⟨hd, hw, hgen⟩ := h
  simp only [Trial.Encode, Trial.Decode, List.cons_append, decodeGobInt, bind, Except.bind,
    Int.toNat_natCast]
  rw [decodeGenerations_roundtrip t.generations rest hgen]
  obtain ⟨tdur, tgens, twin⟩ := t
  simp only at hd hw
  subst hd hw
  rfl

/-- Decoding back a list of encoded persistable trials recovers the list. -/
theorem decodeTrials_roundtrip (ts : List Trial) (rest : GobStream)
    (h : ∀ t ∈ ts, trialPersistable t) :
    decodeTrials ts.length ((ts.map Trial.Encode).flatten ++ rest) = .ok (ts, rest) := by
  induction ts generalizing rest with
  | nil => rfl
  | cons t ts ih =>
    simp only [List.map_cons, List.flatten_cons, List.length_cons, List.append_assoc,
      decodeTrials]
    rw [trialDecode_trialEncode t _ (h t (List.mem_cons_self t ts))]
    simp only [bind, Except.bind]
    rw [ih rest (fun t ht => h t (List.mem_cons_of_mem _ ht))]

/-- Claim C2 counterexample: `Experiment.Encode` never writes `RandSeed` (nor
`MaxFitnessScore`), so an experiment with `RandSeed = 1` — champions
trivially present on all (zero) generations — decodes back to the zero
experiment, which differs from the original field-for-field. -/
theorem C2_roundtrip_counterexample :
    Experiment.Decode Experiment.zero
        (Experiment.Encode { Experiment.zero with randSeed := 1 }) =
      .ok (Experiment.zero, []) ∧
    Experiment.zero ≠ { Experiment.zero with randSeed := 1 } :=
  ⟨rfl, by decide⟩

/-- Claim C2 (amended): for every Experiment whose non-persisted fields hold
their zero values (`RandSeed`, `MaxFitnessScore`, each trial's `Duration`
and cached winner generation, each champion's `Flag` and species
back-reference) and in which every Generation's champion is present with a
non-nil genotype, encoding with `Experiment.Encode` and decoding the stream
with `Experiment.Decode` (into a fresh zero experiment) yields the original
experiment, field for field, with the whole stream consumed. -/
theorem C2_roundtrip_amended (e : Experiment) (h : experimentPersistable e) :
    Experiment.Decode Experiment.zero (Experiment.Encode e) = .ok (e, []) := by
  obtain ⟨hr, hm, hts⟩ := h
  have hflat : (e.trials.map Trial.Encode).flatten =
      (e.trials.map Trial.Encode).flatten ++ [] := by simp
  simp only [Experiment.Encode, Experiment.Decode, List.cons_append, List.nil_append,
    decodeGobInt, decodeGobStr, bind, Except.bind, Int.toNat_natCast]
  rw [hflat, decodeTrials_roundtrip e.trials [] hts]
  obtain ⟨eid, ename, erand, emax, etr⟩ := e
  simp only at hr hm
  subst hr hm
  rfl

/-- Witness experiment for C2: one trial, one solved generation, a champion
with a genotype. -/
def expWitness : Experiment :=
  { Experiment.zero with
    id := 9, name := "xor"
    trials := [{ Trial.zero with
      generations := [{ Generation.zero with
        id := 5, solved := true, fitness := [3], age := [1], complexity := [6]
        diversity := 1
        champion := some { Organism.zero with
          fitness := 3, isWinner := true, genotype := some ⟨7, 2, 4⟩ } }] }] }

/-- Witness for C2 (amended) at `expWitness`. -/
theorem C2_roundtrip_amended_witness :
    Experiment.Decode Experiment.zero (Experiment.Encode expWitness) =
      .ok (expWitness, []) :=
  C2_roundtrip_amended expWitness
    ⟨rfl, rfl, by
      intro t ht
      simp only [expWitness, List.mem_singleton] at ht
      subst ht
      refine ⟨rfl, rfl, ?_⟩
      intro g hg
      simp only [List.mem_singleton] at hg
      subst hg
      exact ⟨_, rfl, rfl, rfl, ⟨7, 2, 4⟩, rfl⟩⟩

/-- Claim C1: `Generation.Encode` writes the twelve scalar/vector fields and
emits a champion record only when the champion is non-nil, while
`Generation.Decode` — after reading the twelve fields — always invokes the
organism decoder on the remaining stream; in particular a nil-champion
generation encodes to exactly the twelve fields and its decode runs the
organism decoder on the champion-free remainder. -/
theorem C1_generation_codec_champion_asymmetry (g : Generation) :
    (g.champion = none →
      Generation.Encode g = generationScalarItems g ∧
      (Generation.Encode g).length = 12) ∧
    (∀ o, g.champion = some o →
      Generation.Encode g = generationScalarItems g ++ encodeOrganism o) ∧
    (∀ g0 rest, Generation.Decode g0 (generationScalarItems g ++ rest) =
      (decodeOrganism rest).map (fun p => ({ g with champion := some p.1 }, p.2))) := by
  refine ⟨fun h => ⟨?_, ?_⟩, fun o h => ?_, fun g0 rest => generationDecode_append g g0 rest⟩
  · simp [Generation.Encode, h]
  · simp [Generation.Encode, h, generationScalarItems]
  · simp [Generation.Encode, h]

/-- Witness for C1: the zero generation has a nil champion; its encoding is
exactly the twelve scalar items and its decode reaches the organism decoder
(which fails on the empty remainder). -/
theorem C1_generation_codec_witness :
    Generation.Encode Generation.zero = generationScalarItems Generation.zero ∧
    (Generation.Encode Generation.zero).length = 12 ∧
    Generation.Decode Generation.zero (generationScalarItems Generation.zero ++ []) =
      (decodeOrganism []).map
        (fun p => ({ Generation.zero with champion := some p.1 }, p.2)) := by
  refine ⟨((C1_generation_codec_champion_asymmetry Generation.zero).1 rfl).1,
    ((C1_generation_codec_champion_asymmetry Generation.zero).1 rfl).2,
    (C1_generation_codec_champion_asymmetry Generation.zero).2.2 Generation.zero []⟩

/-- The accumulation loop of `Experiment.EfficiencyScore` computes the count
of solved trials and the sums of their champion complexities and fitnesses. -/
theorem foldl_effStep (ts : List Trial) (c sc sf : ℚ) :
    ts.foldl effStep (c, sc, sf) =
      (c + ((ts.filter Trial.Solved).length : ℚ),
       sc + ((ts.filter Trial.Solved).map Trial.winnerChampionComplexity).sum,
       sf + ((ts.filter Trial.Solved).map Trial.championFitness).sum) := by
  induction ts generalizing c sc sf with
  | nil => simp
  | cons t ts ih =>
    by_cases h : t.Solved
    · simp only [List.foldl_cons, effStep, h, if_true, ih, List.filter_cons_of_pos h,
        List.length_cons, List.map_cons, List.sum_cons, Prod.mk.injEq]
      refine ⟨?_, by ring, by ring⟩
      push_cast
      ring
    · simp only [List.foldl_cons, effStep, h, if_false, ih, List.filter_cons_of_neg h,
        Bool.false_eq_true]

/-- The solved trial of the negative-penalty experiment: one solved
generation with a champion of complexity 2 and a negative epoch duration. -/
def trialNegSolved : Trial :=
  { Trial.zero with
    generations :=
      [{ Generation.zero with
          solved := true, duration := -2000000000
          champion := some { Organism.zero with
            fitness := 3, genotype := some ⟨1, 1, 1⟩ } }] }

/-- The unsolved companion trial of the negative-penalty experiment. -/
def trialNegOther : Trial :=
  { Trial.zero with generations := [Generation.zero] }

/-- The experiment exhibiting a negative penalty. -/
def expNegPenalty : Experiment :=
  { Experiment.zero with trials := [trialNegSolved, trialNegOther] }

/-- `EfficiencyScore` on an experiment with fewer than two trials is `0`:
the means stay zero, so the penalty vanishes and the zero score is
returned. -/
theorem efficiencyScore_small (log : ℚ → ℚ) (e : Experiment)
    (h : e.trials.length < 2) : Experiment.EfficiencyScore log e = 0 := by
  have h1 : ¬ e.trials.length > 1 := by omega
  simp [Experiment.EfficiencyScore, h1, Experiment.penaltyScore]

/-- `EfficiencyScore` on an experiment with at least two trials follows the
claimed formula, with the non-positive-penalty branch returning the penalty
value itself. -/
theorem efficiencyScore_formula (log : ℚ → ℚ) (e : Experiment)
    (h : 2 ≤ e.trials.length) :
    Experiment.EfficiencyScore log e =
      if specPenalty e > 0 then
        e.SuccessRate * specScaledFitness e / log (specPenalty e)
      else specPenalty e := by
  have h1 : e.trials.length > 1 := by omega
  have hacc := foldl_effStep e.trials 0 0 0
  simp only [zero_add] at hacc
  simp only [Experiment.EfficiencyScore, if_pos h1, hacc, specPenalty,
    specScaledFitness, specMeanFitness, specMeanComplexity, Experiment.solvedTrials,
    Experiment.penaltyScore]

/-- Claim C3 counterexample: the claim says the score is `0` whenever the
penalty is not positive, but the source returns the penalty value itself;
on `expNegPenalty` (two trials, the solved one with a negative epoch
duration) the penalty is `-2000` — not positive — and the returned score is
`-2000`, not `0`. -/
theorem C3_efficiency_score_counterexample :
    Experiment.EfficiencyScore (fun _ => 0) expNegPenalty = -2000 ∧
    ¬ (Experiment.penaltyScore expNegPenalty (specMeanComplexity expNegPenalty)) > 0 ∧
    (-2000 : ℚ) ≠ 0 := by
  have hdur : Experiment.AvgEpochDuration expNegPenalty = -1000000000 := by decide
  have hsolve1 : Trial.Solved trialNegSolved = true := by decide
  have hsolve2 : Trial.Solved trialNegOther = false := by decide
  have hcc : ((Trial.winnerGenerationAfterFill trialNegSolved).getD
      Generation.zero).ChampionComplexity = 2 := by decide
  have hgen : Experiment.AvgGenerationsPerTrial expNegPenalty = 1 := by
    rw [Experiment.AvgGenerationsPerTrial]
    norm_num [expNegPenalty, trialNegSolved, trialNegOther, Trial.zero]
  have hmc : specMeanComplexity expNegPenalty = 2 := by
    rw [specMeanComplexity, Experiment.solvedTrials]
    simp only [expNegPenalty, List.filter_cons, hsolve1, hsolve2]
    norm_num [Trial.winnerChampionComplexity, hcc]
  have hpen : specPenalty expNegPenalty = -2000 := by
    rw [specPenalty, hdur, hgen, hmc]
    norm_num
  have hscore := efficiencyScore_formula (fun _ => 0) expNegPenalty (by decide)
  rw [hpen] at hscore
  norm_num at hscore
  refine ⟨hscore, ?_, by norm_num⟩
  rw [show Experiment.penaltyScore expNegPenalty (specMeanComplexity expNegPenalty) =
        specPenalty expNegPenalty from rfl, hpen]
  norm_num

/-- Claim C3 (amended): `EfficiencyScore` returns `0` for fewer than two
trials; with two or more trials it averages winner-generation champion
complexity and fitness over the solved trials, rescales fitness by
`(meanFitness / MaxFitnessScore) * 100` exactly when `MaxFitnessScore > 0`,
computes the penalty `avgEpochDurationSeconds * 1000 *
avgGenerationsPerTrial * meanComplexity`, and returns `successRate *
scaledFitness / ln(penalty)` when the penalty is positive — and the
(non-positive) penalty value itself otherwise. -/
theorem C3_efficiency_score_amended (log : ℚ → ℚ) (e : Experiment) :
    (e.trials.length < 2 → Experiment.EfficiencyScore log e = 0) ∧
    (2 ≤ e.trials.length →
      Experiment.EfficiencyScore log e =
        if specPenalty e > 0 then
          e.SuccessRate * specScaledFitness e / log (specPenalty e)
        else specPenalty e) :=
  ⟨efficiencyScore_small log e, efficiencyScore_formula log e⟩

/-- Witness for C3 (amended): the zero-trial experiment scores `0`, and the
negative-penalty experiment falls into the formula of the second branch. -/
theorem C3_efficiency_score_amended_witness :
    Experiment.EfficiencyScore (fun _ => 0) Experiment.zero = 0 ∧
    Experiment.EfficiencyScore (fun _ => 0) expNegPenalty =
      (if specPenalty expNegPenalty > 0 then
        Experiment.SuccessRate expNegPenalty * specScaledFitness expNegPenalty / (0 : ℚ)
      else specPenalty expNegPenalty) :=
  ⟨(C3_efficiency_score_amended (fun _ => 0) Experiment.zero).1 (by decide),
   (C3_efficiency_score_amended (fun _ => 0) expNegPenalty).2 (by decide)⟩

/-- `List.set` then lookup at the written index yields the written value. -/
theorem getElem?_set_written (l : List α) (i : Nat) (a : α) (h : i < l.length) :
    (l.set i a)[i]? = some a := by
  induction l generalizing i with
  | nil => simp at h
  | cons x xs ih =>
    cases i with
    | zero => simp
    | succ n => simpa using ih n (by simpa using h)

/-- `pickBest` returns its seed or one of the scanned candidates. -/
theorem pickBest_mem (p : Nat × Organism) (ps : List (Nat × Organism)) :
    pickBest p ps = p ∨ pickBest p ps ∈ ps := by
  induction ps generalizing p with
  | nil => left; rfl
  | cons q qs ih =>
    rw [pickBest]
    rcases ih (if q.2.fitness > p.2.fitness then q else p) with h | h
    · by_cases hf : q.2.fitness > p.2.fitness
      · right; rw [h, if_pos hf]; exact List.mem_cons_self q qs
      · left; rw [h, if_neg hf]
    · right; exact List.mem_cons_of_mem q h

/-- Every resolved pair comes from the given pointer list. -/
theorem resolveRefs_mem (store : List Organism) (refs : List Nat)
    (l : List (Nat × Organism)) (h : resolveRefs store refs = some l) :
    ∀ p ∈ l, p.1 ∈ refs := by
  induction refs generalizing l with
  | nil =>
    simp only [resolveRefs, Option.some.injEq] at h
    subst h; simp
  | cons r rest ih =>
    rw [resolveRefs] at h
    rcases ho : store[r]? with _ | o <;> rw [ho] at h
    · cases h
    · rcases hr : resolveRefs store rest with _ | l2 <;> rw [hr] at h
      · cases h
      · simp only [Option.map_some', Option.some.injEq] at h
        subst h
        intro p hp
        rcases List.mem_cons.mp hp with h1 | h1
        · rw [h1]; exact List.mem_cons_self r rest
        · exact List.mem_cons_of_mem r (ih l2 hr p h1)

/-- The species representative is one of the species' organism pointers. -/
theorem bestRef_mem (store : List Organism) (refs : List Nat) (p : Nat × Organism)
    (h : bestRef store refs = some p) : p.1 ∈ refs := by
  rw [bestRef] at h
  rcases hr : resolveRefs store refs with _ | l <;> rw [hr] at h
  · cases h
  · match l, h with
    | q :: qs, h =>
      simp only [Option.some.injEq] at h
      subst h
      rcases pickBest_mem q qs with h1 | h1
      · rw [h1]; exact resolveRefs_mem store refs _ hr q (List.mem_cons_self q qs)
      · exact resolveRefs_mem store refs _ hr _ (List.mem_cons_of_mem q h1)

/-- Every collected representative pointer belongs to one of the species. -/
theorem collectReps_refs (store : List Organism) (species : List SpeciesR)
    (reps : List (Int × Nat × Organism)) (h : collectReps store species = some reps) :
    ∀ rep ∈ reps, ∃ s ∈ species, rep.2.1 ∈ s.organisms := by
  induction species generalizing reps with
  | nil =>
    simp only [collectReps, Option.some.injEq] at h
    subst h; simp
  | cons s rest ih =>
    rw [collectReps] at h
    rcases hb : bestRef store s.organisms with _ | p <;> rw [hb] at h
    · cases h
    · rcases hc : collectReps store rest with _ | l <;> rw [hc] at h
      · cases h
      · simp only [Option.some.injEq] at h
        subst h
        intro rep hrep
        rcases List.mem_cons.mp hrep with h1 | h1
        · subst h1
          exact ⟨s, List.mem_cons_self s rest, bestRef_mem store s.organisms p hb⟩
        · obtain ⟨s2, hs2, hm⟩ := ih l hc rep h1
          exact ⟨s2, List.mem_cons_of_mem s hs2, hm⟩

/-- `collectReps` yields one representative per species. -/
theorem collectReps_length (store : List Organism) (species : List SpeciesR)
    (reps : List (Int × Nat × Organism)) (h : collectReps store species = some reps) :
    reps.length = species.length := by
  induction species generalizing reps with
  | nil =>
    simp only [collectReps, Option.some.injEq] at h
    subst h; rfl
  | cons s rest ih =>
    rw [collectReps] at h
    rcases hb : bestRef store s.organisms with _ | p <;> rw [hb] at h
    · cases h
    · rcases hc : collectReps store rest with _ | l <;> rw [hc] at h
      · cases h
      · simp only [Option.some.injEq] at h
        subst h
        simp [ih l hc]

/-- The champion selected by the fold is the incoming champion or one of the
representatives. -/
theorem championStep_fold_mem (reps : List (Int × Nat × Organism))
    (acc : Option Nat × ℚ) (r : Nat)
    (h : (reps.foldl championStep acc).1 = some r) :
    acc.1 = some r ∨ ∃ rep ∈ reps, rep.2.1 = r := by
  induction reps generalizing acc with
  | nil => left; exact h
  | cons rep reps ih =>
    rw [List.foldl_cons] at h
    rcases ih (championStep acc rep) h with h1 | h1
    · rw [championStep] at h1
      by_cases hf : rep.2.2.fitness > acc.2
      · rw [if_pos hf] at h1
        simp only [Option.some.injEq] at h1
        right; exact ⟨rep, List.mem_cons_self rep reps, h1⟩
      · rw [if_neg hf] at h1
        left; exact h1
    · right
      obtain ⟨rep2, hm, he⟩ := h1
      exact ⟨rep2, List.mem_cons_of_mem rep hm, he⟩

/-- Claim C9: after `FillPopulationStatistics` succeeds on a population
snapshot, the generation satisfies `len(Fitness) = len(Age) =
len(Complexity) = Diversity`, with `Diversity` the number of species. -/
theorem C9_fill_statistics_lengths (store : List Organism) (g g2 : GenerationR)
    (pop : Population)
    (h : GenerationR.FillPopulationStatistics store g pop = some g2) :
    g2.fitness.length = pop.species.length ∧
    g2.age.length = pop.species.length ∧
    g2.complexity.length = pop.species.length ∧
    g2.diversity = (pop.species.length : Int) := by
  rw [GenerationR.FillPopulationStatistics] at h
  rcases hc : collectReps store pop.species with _ | reps <;> rw [hc] at h
  · cases h
  · simp only [Option.some.injEq] at h
    subst h
    have hlen := collectReps_length store pop.species reps hc
    simp [hlen]

/-- The population mutated in the C7 scenario: one species, one organism. -/
def popOne : Population := ⟨[⟨0, [0]⟩]⟩

/-- The organism store before the mutation. -/
def storeBefore : List Organism := [{ Organism.zero with fitness := 5 }]

/-- The organism store after the population mutates the organism's fitness. -/
def storeAfter : List Organism := storeBefore.set 0 { Organism.zero with fitness := 7 }

/-- The generation produced by `FillPopulationStatistics` in the C7
scenario. -/
def genFilled : GenerationR :=
  { GenerationR.zero with
    diversity := 1, age := [0], complexity := [((maxIntVal : Int) : ℚ)]
    fitness := [5], champion := some 0 }

/-- Witness for C9 at the one-species snapshot. -/
theorem C9_fill_statistics_lengths_witness :
    genFilled.fitness.length = popOne.species.length ∧
    genFilled.age.length = popOne.species.length ∧
    genFilled.complexity.length = popOne.species.length ∧
    genFilled.diversity = (popOne.species.length : Int) :=
  C9_fill_statistics_lengths storeBefore GenerationR.zero genFilled popOne (by decide)

/-- Claim C7 counterexample: `FillPopulationStatistics` stores the champion
as a live pointer (`g.Champion = currSpecies.Organisms[0]`), not a copy:
after filling, mutating the population organism's fitness from 5 to 7
changes the generation's recorded champion. -/
theorem C7_champion_copy_counterexample :
    GenerationR.FillPopulationStatistics storeBefore GenerationR.zero popOne =
      some genFilled ∧
    championOf storeBefore genFilled = some { Organism.zero with fitness := 5 } ∧
    championOf storeAfter genFilled = some { Organism.zero with fitness := 7 } ∧
    (7 : ℚ) ≠ 5 :=
  ⟨by decide, by decide, by decide, by norm_num⟩

/-- Claim C7 (amended): the champion recorded by `FillPopulationStatistics`
is a live reference into the population, not an owned copy: any selected
champion pointer is the previous champion or one of the population's
organism pointers, and overwriting the store at that pointer changes the
generation's observed champion to the new organism. -/
theorem C7_champion_live_reference (store : List Organism) (g : GenerationR)
    (pop : Population) (g2 : GenerationR) (r : Nat)
    (hfill : GenerationR.FillPopulationStatistics store g pop = some g2)
    (hch : g2.champion = some r) :
    (g.champion = some r ∨ r ∈ allOrganismRefs pop) ∧
    (∀ o2, r < store.length → championOf (store.set r o2) g2 = some o2) := by
  constructor
  · rw [GenerationR.FillPopulationStatistics] at hfill
    rcases hc : collectReps store pop.species with _ | reps <;> rw [hc] at hfill
    · cases hfill
    · simp only [Option.some.injEq] at hfill
      subst hfill
      simp only at hch
      by_cases hs : g.solved
      · rw [if_pos hs] at hch
        exact Or.inl hch
      · rw [if_neg hs] at hch
        rcases championStep_fold_mem reps _ r hch with h1 | h1
        · exact Or.inl h1
        · right
          obtain ⟨rep, hm, he⟩ := h1
          obtain ⟨s, hsmem, hrmem⟩ := collectReps_refs store pop.species reps hc rep hm
          rw [← he]
          simp only [allOrganismRefs, List.mem_flatten]
          exact ⟨s.organisms, List.mem_map_of_mem _ hsmem, hrmem⟩
  · intro o2 hlen
    simp [championOf, hch, getElem?_set_written store r o2 hlen]

/-- Witness for C7 (amended) at the one-species snapshot, mutating the
champion's organism to fitness 7. -/
theorem C7_champion_live_reference_witness :
    (GenerationR.zero.champion = some 0 ∨ 0 ∈ allOrganismRefs popOne) ∧
    championOf (storeBefore.set 0 { Organism.zero with fitness := 7 }) genFilled =
      some { Organism.zero with fitness := 7 } :=
  ⟨(C7_champion_live_reference storeBefore GenerationR.zero popOne genFilled 0
      (by decide) rfl).1,
   (C7_champion_live_reference storeBefore GenerationR.zero popOne genFilled 0
      (by decide) rfl).2 { Organism.zero with fitness := 7 } (by decide)⟩

/-- Every candidate of `trialCands` is resolved in the store. -/
theorem trialCands_resolved (s : List Organism) (t : TrialR) (q : Nat × Organism)
    (h : q ∈ trialCands s t) : s[q.1]? = some q.2 := by
  rw [trialCands] at h
  obtain ⟨r, _, hro⟩ := List.mem_filterMap.mp h
  rw [resolveRef] at hro
  rcases ho : s[r]? with _ | o <;> rw [ho] at hro
  · cases hro
  · simp only [Option.map_some', Option.some.injEq] at hro
    rw [← hro]
    exact ho

/-- `trialBest` returns a pair resolved in the store. -/
theorem trialBest_resolved (s : List Organism) (t : TrialR) (onlySolvers : Bool)
    (p : Nat × Organism) (h : trialBest s t onlySolvers = some p) :
    s[p.1]? = some p.2 := by
  rw [trialBest] at h
  rcases hl : (if onlySolvers then (trialCands s t).filter (fun p => p.2.isWinner)
      else trialCands s t) with _ | ⟨q, qs⟩ <;> rw [hl] at h
  · cases h
  · simp only [Option.some.injEq] at h
    subst h
    have hmem : pickBest q qs ∈ q :: qs := by
      rcases pickBest_mem q qs with h1 | h1
      · rw [h1]; exact List.mem_cons_self q qs
      · exact List.mem_cons_of_mem q h1
    rw [← hl] at hmem
    refine trialCands_resolved s t _ ?_
    cases onlySolvers
    · simpa using hmem
    · simp only [if_true] at hmem
      exact List.mem_of_mem_filter hmem

/-- With `onlySolvers` and no winner-flagged organism among a trial's
champions, `trialBest` signals not-found. -/
theorem trialBest_none_of_no_winner (store : List Organism) (t : TrialR)
    (h : ∀ g ∈ t.generations, ∀ r, g.champion = some r →
      ∀ o, store[r]? = some o → o.isWinner = false) :
    trialBest store t true = none := by
  have hf : (trialCands store t).filter (fun p => p.2.isWinner) = [] := by
    rw [List.filter_eq_nil_iff]
    intro p hp
    have hres := trialCands_resolved store t p hp
    rw [trialCands] at hp
    obtain ⟨r, hr, hro⟩ := List.mem_filterMap.mp hp
    obtain ⟨g, hg, hgc⟩ := List.mem_filterMap.mp hr
    rw [resolveRef] at hro
    rcases ho : store[r]? with _ | o <;> rw [ho] at hro
    · cases hro
    · simp only [Option.map_some', Option.some.injEq] at hro
      rw [← hro]
      simp [h g hg r hgc o ho]
  simp [trialBest, hf]

/-- A loop over trials that all signal not-found collects nothing and never
mutates the store. -/
theorem bestLoop_all_none (store : List Organism) (ts : List TrialR) (i : Nat)
    (orgs : List Nat) (h : ∀ t ∈ ts, trialBest store t true = none) :
    bestLoop true store ts i orgs = (orgs, store) := by
  induction ts generalizing i with
  | nil => rfl
  | cons t ts ih =>
    simp only [bestLoop, h t (List.mem_cons_self t ts)]
    exact ih (i + 1) (fun x hx => h x (List.mem_cons_of_mem t hx))

/-- Claim C8: `Experiment.BestOrganism(onlySolvers=true)` returns the
not-found triple (nil organism, trial index `-1`, `false`) whenever no
trial contains a winner-flagged organism — whatever the fitness of the
non-winning organisms — and leaves the store unchanged. -/
theorem C8_best_organism_not_found (store : List Organism) (trials : List TrialR)
    (h : ∀ t ∈ trials, ∀ g ∈ t.generations, ∀ r, g.champion = some r →
      ∀ o, store[r]? = some o → o.isWinner = false) :
    BestOrganismR store trials true = ((none, -1, false), store) := by
  have hloop : bestLoop true store trials 0 [] = ([], store) :=
    bestLoop_all_none store trials 0 []
      (fun t ht => trialBest_none_of_no_winner store t (h t ht))
  simp [BestOrganismR, hloop]

/-- The C8 witness trial: one generation whose champion is organism 0. -/
def trialNoWinner : TrialR := ⟨[{ GenerationR.zero with champion := some 0 }]⟩

/-- Witness for C8: a store holding a single high-fitness organism that is
not winner-flagged yields the not-found triple. -/
theorem C8_best_organism_not_found_witness :
    BestOrganismR [{ Organism.zero with fitness := 100 }] [trialNoWinner] true =
      ((none, -1, false), [{ Organism.zero with fitness := 100 }]) :=
  C8_best_organism_not_found [{ Organism.zero with fitness := 100 }] [trialNoWinner]
    (by
      intro t ht g hg r hr o ho
      rw [List.mem_singleton] at ht
      subst ht
      rw [trialNoWinner] at hg
      rw [List.mem_singleton] at hg
      subst hg
      simp only at hr
      injection hr with hr2
      subst hr2
      simp only [List.getElem?_cons_zero, Option.some.injEq] at ho
      rw [← ho]
      rfl)

/-- The effect of one in-place `Flag` write on a candidate pair: only the
pair holding the written pointer changes, and only in its `Flag` field. -/
def flagAdjust (x : Nat) (v : Int) (p : Nat × Organism) : Nat × Organism :=
  if p.1 = x then (p.1, { p.2 with flag := v }) else p

/-- `flagAdjust` preserves the pointer component. -/
theorem flagAdjust_fst (x : Nat) (v : Int) (p : Nat × Organism) :
    (flagAdjust x v p).1 = p.1 := by
  rw [flagAdjust]; split <;> rfl

/-- `flagAdjust` preserves the fitness. -/
theorem flagAdjust_fitness (x : Nat) (v : Int) (p : Nat × Organism) :
    (flagAdjust x v p).2.fitness = p.2.fitness := by
  rw [flagAdjust]; split <;> rfl

/-- `flagAdjust` preserves the winner flag. -/
theorem flagAdjust_isWinner (x : Nat) (v : Int) (p : Nat × Organism) :
    (flagAdjust x v p).2.isWinner = p.2.isWinner := by
  rw [flagAdjust]; split <;> rfl

/-- Lookup in a store after an in-place `Flag` write. -/
theorem flagSet_getElem (s : List Organism) (r : Nat) (i : Int) (x : Nat) :
    (flagSet s r i)[x]? =
      if x = r then (s[x]?).map (fun o => { o with flag := i }) else s[x]? := by
  induction s generalizing r x with
  | nil => simp only [flagSet, List.getElem?_nil, Option.map_none', ite_self]
  | cons o s ih =>
    cases r with
    | zero =>
      cases x with
      | zero => simp [flagSet]
      | succ m => simp [flagSet]
    | succ n =>
      cases x with
      | zero => simp [flagSet]
      | succ m => simp [flagSet, ih]

/-- Resolving a pointer after a `Flag` write adjusts only that pair's flag. -/
theorem resolveRef_flagSet (s : List Organism) (x : Nat) (v : Int) (r : Nat) :
    resolveRef (flagSet s x v) r = (resolveRef s r).map (flagAdjust x v) := by
  rw [resolveRef, resolveRef, flagSet_getElem]
  by_cases h : r = x
  · rw [if_pos h]
    rcases s[r]? with _ | o <;> simp [flagAdjust, h]
  · rw [if_neg h]
    rcases s[r]? with _ | o <;> simp [flagAdjust, h]

/-- The candidate list after a `Flag` write is the adjusted candidate list. -/
theorem trialCands_flagSet (s : List Organism) (x : Nat) (v : Int) (t : TrialR) :
    trialCands (flagSet s x v) t = (trialCands s t).map (flagAdjust x v) := by
  rw [trialCands, trialCands, List.map_filterMap]
  congr 1
  funext a
  exact resolveRef_flagSet s x v a

/-- Filtering winners commutes with the flag adjustment. -/
theorem filter_winner_flagAdjust (x : Nat) (v : Int) (l : List (Nat × Organism)) :
    (l.map (flagAdjust x v)).filter (fun p => p.2.isWinner) =
      (l.filter (fun p => p.2.isWinner)).map (flagAdjust x v) := by
  induction l with
  | nil => rfl
  | cons p ps ih =>
    simp only [List.map_cons, List.filter_cons, flagAdjust_isWinner]
    by_cases h : p.2.isWinner <;> simp [h, ih]

/-- `pickBest` commutes with the flag adjustment (fitness is preserved). -/
theorem pickBest_flagAdjust (x : Nat) (v : Int) (p : Nat × Organism)
    (ps : List (Nat × Organism)) :
    pickBest (flagAdjust x v p) (ps.map (flagAdjust x v)) =
      flagAdjust x v (pickBest p ps) := by
  induction ps generalizing p with
  | nil => rfl
  | cons q qs ih =>
    simp only [List.map_cons, pickBest, flagAdjust_fitness]
    by_cases h : q.2.fitness > p.2.fitness
    · rw [if_pos h, if_pos h, ih]
    · rw [if_neg h, if_neg h, ih]

/-- A `Flag` write adjusts the per-trial best only in its flag field — in
particular the chosen pointer is unchanged. -/
theorem trialBest_flagSet (s : List Organism) (x : Nat) (v : Int) (t : TrialR)
    (onlySolvers : Bool) :
    trialBest (flagSet s x v) t onlySolvers =
      (trialBest s t onlySolvers).map (flagAdjust x v) := by
  rw [trialBest, trialBest, trialCands_flagSet]
  cases onlySolvers
  · simp only [Bool.false_eq_true, if_false]
    rcases hl : trialCands s t with _ | ⟨p, ps⟩
    · simp [hl]
    · simp [hl, pickBest_flagAdjust]
  · simp only [if_true]
    rw [filter_winner_flagAdjust]
    rcases hl : (trialCands s t).filter (fun p => p.2.isWinner) with _ | ⟨p, ps⟩
    · simp [hl]
    · simp [hl, pickBest_flagAdjust]

/-- When no trial of the remaining loop picks the pointer `r`, the loop never
writes to `r`. -/
theorem bestLoop_preserves (onlySolvers : Bool) (r : Nat) (ts : List TrialR) :
    ∀ (s : List Organism) (k : Nat) (orgs : List Nat),
    (∀ t ∈ ts, ∀ p, trialBest s t onlySolvers = some p → p.1 ≠ r) →
    ((bestLoop onlySolvers s ts k orgs).2)[r]? = s[r]? := by
  induction ts with
  | nil => intro s k orgs _; rfl
  | cons t ts ih =>
    intro s k orgs h
    rw [bestLoop]
    rcases hb : trialBest s t onlySolvers with _ | p
    · exact ih s (k + 1) orgs (fun t2 ht2 => h t2 (List.mem_cons_of_mem t ht2))
    · have hne : p.1 ≠ r := h t (List.mem_cons_self t ts) p hb
      have hstep : (flagSet s p.1 (k : Int))[r]? = s[r]? := by
        rw [flagSet_getElem, if_neg (fun hxr => hne hxr.symm)]
      rw [ih (flagSet s p.1 (k : Int)) (k + 1) (orgs ++ [p.1]) ?_, hstep]
      intro t2 ht2 q hq
      rw [trialBest_flagSet] at hq
      rcases hb2 : trialBest s t2 onlySolvers with _ | q0 <;> rw [hb2] at hq
      · cases hq
      · simp only [Option.map_some', Option.some.injEq] at hq
        rw [← hq, flagAdjust_fst]
        exact h t2 (List.mem_cons_of_mem t ht2) q0 hb2

/-- Processing the trial at position `pre.length` whose best organism is the
pointer `r` — no other trial picking `r` — leaves the store holding, at
`r`, the original organism with its `Flag` overwritten by that trial
index. -/
theorem bestLoop_hit (onlySolvers : Bool) (r : Nat) (pre : List TrialR) :
    ∀ (t : TrialR) (post : List TrialR) (s : List Organism) (k : Nat)
      (orgs : List Nat) (o : Organism),
    trialBest s t onlySolvers = some (r, o) →
    (∀ t2 ∈ pre, ∀ p, trialBest s t2 onlySolvers = some p → p.1 ≠ r) →
    (∀ t2 ∈ post, ∀ p, trialBest s t2 onlySolvers = some p → p.1 ≠ r) →
    ((bestLoop onlySolvers s (pre ++ t :: post) k orgs).2)[r]? =
      some { o with flag := ((k + pre.length : Nat) : Int) } := by
  induction pre with
  | nil =>
    intro t post s k orgs o hbest _ hpost
    simp only [List.nil_append, bestLoop, hbest]
    have hs : (flagSet s r (k : Int))[r]? = some { o with flag := (k : Int) } := by
      rw [flagSet_getElem, if_pos rfl, trialBest_resolved s t onlySolvers (r, o) hbest]
      rfl
    rw [bestLoop_preserves onlySolvers r post _ (k + 1) _ ?_, hs]
    · simp
    · intro t2 ht2 q hq
      rw [trialBest_flagSet] at hq
      rcases hb2 : trialBest s t2 onlySolvers with _ | q0 <;> rw [hb2] at hq
      · cases hq
      · simp only [Option.map_some', Option.some.injEq] at hq
        rw [← hq, flagAdjust_fst]
        exact hpost t2 ht2 q0 hb2
  | cons t1 pre ih =>
    intro t post s k orgs o hbest hpre hpost
    have harith : k + 1 + pre.length = k + (t1 :: pre).length := by
      rw [List.length_cons]; omega
    rcases hb1 : trialBest s t1 onlySolvers with _ | p
    · have h2 := ih t post s (k + 1) orgs o hbest
        (fun t2 ht2 => hpre t2 (List.mem_cons_of_mem t1 ht2)) hpost
      rw [harith] at h2
      simpa only [List.cons_append, bestLoop, hb1] using h2
    · have hne : p.1 ≠ r := hpre t1 (List.mem_cons_self t1 pre) p hb1
      have hbest2 : trialBest (flagSet s p.1 (k : Int)) t onlySolvers = some (r, o) := by
        rw [trialBest_flagSet, hbest]
        simp only [Option.map_some', Option.some.injEq]
        rw [flagAdjust]
        simp only [if_neg (fun hxr : r = p.1 => hne hxr.symm)]
      have htrans : ∀ (l : List TrialR),
          (∀ t2 ∈ l, ∀ q, trialBest s t2 onlySolvers = some q → q.1 ≠ r) →
          ∀ t2 ∈ l, ∀ q,
            trialBest (flagSet s p.1 (k : Int)) t2 onlySolvers = some q → q.1 ≠ r := by
        intro l hl t2 ht2 q hq
        rw [trialBest_flagSet] at hq
        rcases hb2 : trialBest s t2 onlySolvers with _ | q0 <;> rw [hb2] at hq
        · cases hq
        · simp only [Option.map_some', Option.some.injEq] at hq
          rw [← hq, flagAdjust_fst]
          exact hl t2 ht2 q0 hb2
      have h2 := ih t post (flagSet s p.1 (k : Int)) (k + 1) (orgs ++ [p.1]) o hbest2
        (htrans pre (fun t2 ht2 => hpre t2 (List.mem_cons_of_mem t1 ht2)))
        (htrans post hpost)
      rw [harith] at h2
      simpa only [List.cons_append, bestLoop, hb1] using h2

/-- The final store of `Experiment.BestOrganism` is the loop's store, in both
the found and not-found branches. -/
theorem BestOrganismR_store (store : List Organism) (trials : List TrialR)
    (onlySolvers : Bool) :
    (BestOrganismR store trials onlySolvers).2 =
      (bestLoop onlySolvers store trials 0 []).2 := by
  rw [BestOrganismR]
  rcases h : (bestLoop onlySolvers store trials 0 []).1 with _ | ⟨a, as⟩ <;> simp [h]

/-- Claim C10: `Experiment.BestOrganism` mutates the stored organisms: for a
trial at position `i` whose per-trial best organism is found at pointer `r`
(no other trial picking `r`), the organism record at `r` in the store after
the call is the original organism with its `Flag` field overwritten by the
trial index `i`. -/
theorem C10_best_organism_flag_mutation (store : List Organism)
    (pre post : List TrialR) (t : TrialR) (onlySolvers : Bool) (r : Nat) (o : Organism)
    (hbest : trialBest store t onlySolvers = some (r, o))
    (hpre : ∀ t2 ∈ pre, ∀ p, trialBest store t2 onlySolvers = some p → p.1 ≠ r)
    (hpost : ∀ t2 ∈ post, ∀ p, trialBest store t2 onlySolvers = some p → p.1 ≠ r) :
    ((BestOrganismR store (pre ++ t :: post) onlySolvers).2)[r]? =
      some { o with flag := (pre.length : Int) } := by
  rw [BestOrganismR_store]
  have h := bestLoop_hit onlySolvers r pre t post store 0 [] o hbest hpre hpost
  simpa using h

/-- The organisms of the C10 witness. -/
def orgA : Organism := { Organism.zero with fitness := 1 }

/-- The second organism of the C10 witness. -/
def orgB : Organism := { Organism.zero with fitness := 2 }

/-- The first witness trial: champion pointer 0. -/
def trialRef0 : TrialR := ⟨[{ GenerationR.zero with champion := some 0 }]⟩

/-- The second witness trial: champion pointer 1. -/
def trialRef1 : TrialR := ⟨[{ GenerationR.zero with champion := some 1 }]⟩

/-- Witness for C10: the second trial's best organism (pointer 1) ends up
with `Flag = 1`, the trial's index, in the store returned by
`Experiment.BestOrganism`. -/
theorem C10_best_organism_flag_mutation_witness :
    ((BestOrganismR [orgA, orgB] ([trialRef0] ++ trialRef1 :: []) false).2)[1]? =
      some { orgB with flag := (1 : Int) } :=
  C10_best_organism_flag_mutation [orgA, orgB] [trialRef0] [] trialRef1 false 1 orgB
    (by decide)
    (by
      intro t2 ht2 p hp
      rw [List.mem_singleton] at ht2
      subst ht2
      have hb : trialBest [orgA, orgB] trialRef0 false = some (0, orgA) := by decide
      rw [hb] at hp
      injection hp with hp2
      rw [← hp2]
      decide)
    (by intro t2 ht2; simp at ht2)

end DeepNeat
